import Mathlib

/-!
# blog-2021-10: the `timed` completion token

A verification development for `src/timed.cpp` (and the earlier draft
`src/scratch.cpp`).  The file has three parts:

* the string helpers of the demo (`trim_crlf`, `left_view`);
* the body of `timed_initiation::operator()`: executor selection, the shared
  timer, the two branches handed to the parallel group, and the group
  completion handler;
* the race itself, as an event-driven state machine whose events are the
  settlements of the two branches.
-/

namespace timed

/-! ## String helpers of the demo (`src/timed.cpp`, lines 155-166) -/

/-- A `std::error_code`: an integer value within a category (the category is
identified by a number; `0` is the system category). -/
structure error_code where
  value : Int
  category : Nat
deriving DecidableEq

/-- The default-constructed `std::error_code`: no error. -/
def error_code.success : error_code := ⟨0, 0⟩

/-- The error `asio::error::operation_aborted` (`ECANCELED`, 125 on Linux, system
category): what a cancelled asio operation reports. -/
def error_code.operation_aborted : error_code := ⟨125, 0⟩

/-- One element of a completion signature as the demo uses it:
`async_read_until` completes with `(std::error_code, std::size_t)`. -/
inductive value where
  | ec (e : error_code)
  | size (n : Nat)
deriving DecidableEq

/-- An executor: the system executor, or the executor of some execution
context (an `io_context`, a strand, ...) identified by a number. -/
inductive executor where
  | system_executor
  | context (id : Nat)
deriving DecidableEq

/-- Modelled from the spec: `asio::get_associated_executor(t, ex)`, a function of
asio that is not among the repository's sources.  Following the comment at
lines 40-43 of `src/timed.cpp` and section 4.3 of the spec it yields the executor
associated with `t` when `t` has one, and the fallback `ex` otherwise.  An
object's associated executor is given as an `Option`. -/
def get_associated_executor (t : Option executor) (ex : executor) : executor :=
  match t with
  | some e => e
  | none => ex

/-- Modelled from the spec: the one-argument `asio::get_associated_executor(t)`,
whose fallback is the default executor ("system executor currently", line 43). -/
def get_associated_executor_default (t : Option executor) : executor :=
  get_associated_executor t executor.system_executor

/-- What a race does that can be observed from outside, in the order it is done.
`α` is the type of the elements of the target operation's result tuple. -/
inductive effect (α : Type) where
  /-- The effect of `std::allocate_shared<asio::steady_timer>(alloc, ex, timeout)`. -/
  | construct_timer (ex : executor) (timeout : Int)
  /-- Item 0 of the group is launched: `timer->async_wait(token)`, bound to `ex`. -/
  | start_timer_wait (ex : executor)
  /-- Item 1 of the group is launched: `async_initiate(initiation, token, init_args...)`,
  bound to `ex`. -/
  | start_operation (ex : executor)
  /-- A cancellation request is emitted to a branch of the group. -/
  | cancel (branch : Nat)
  /-- The effect of `timer.reset()` in the group completion handler. -/
  | timer_reset
  /-- The effect of `std::move(handler)(args...)`: the caller's continuation is invoked. -/
  | invoke (args : List α)
deriving DecidableEq

/-- The state of one race: what the group completion handler has captured, what
the parallel group has recorded, and the effects so far. -/
structure race_state (α : Type) where
  /-- The `timer` captured by the group completion handler is non-null. -/
  handler_holds_timer : Bool
  /-- The indexes of the branches in the order in which they completed. -/
  completion_order : List Nat
  /-- The completion arguments of branch 0 (`steady_timer::async_wait`). -/
  timer_result : Option error_code
  /-- The completion arguments of branch 1 (the underlying operation). -/
  op_result : Option (List α)
  /-- The group completion handler has run. -/
  completed : Bool
  /-- The effects so far, oldest first. -/
  trace : List (effect α)
deriving DecidableEq

/-- The argument lists with which the caller's continuation has been invoked so
far, oldest first. -/
def delivered {α : Type} (st : race_state α) : List (List α) :=
  st.trace.filterMap fun e =>
    match e with
    | effect.invoke args => some args
    | _ => none

/-- The branches to which a cancellation request has been emitted so far. -/
def cancelled {α : Type} (st : race_state α) : List Nat :=
  st.trace.filterMap fun e =>
    match e with
    | effect.cancel b => some b
    | _ => none

/-- Line 94, `timer.reset()`: the handler's captured `shared_ptr` becomes null. -/
def timer_reset {α : Type} (st : race_state α) : race_state α :=
  { st with handler_holds_timer := false, trace := st.trace ++ [effect.timer_reset] }

/-- Line 97, `std::move(handler)(std::move(underlying_op_results)...)`. -/
def invoke_handler {α : Type} (args : List α) (st : race_state α) : race_state α :=
  { st with trace := st.trace ++ [effect.invoke args] }

/-- The completion handler for the group (lines 78-98).  Its parameters are the
completion-order array, the timer wait's `std::error_code` (both unnamed in
the source, hence unused) and the pack `underlying_op_results`; the body
resets the timer and then invokes the handler with the pack. -/
def group_completion_handler {α : Type} (_order : List Nat) (_timer_ec : error_code)
    (underlying_op_results : List α) (st : race_state α) : race_state α :=
  invoke_handler underlying_op_results (timer_reset st)

/-- The function `timed_initiation::operator()` up to the point where it returns (lines
32-99): the executor is chosen, the timer is built on it, and the group's two
branches are launched, each bound to it; the group completion handler, holding
a copy of `timer`, is left waiting.  `handler_ex` and `initiation_ex` are the
executors associated with `handler` and `initiation`, when they have one. -/
def timed_initiation {α : Type} (handler_ex initiation_ex : Option executor) (timeout : Int) :
    race_state α :=
  let ex := get_associated_executor handler_ex (get_associated_executor_default initiation_ex)
  { handler_holds_timer := true
    completion_order := []
    timer_result := none
    op_result := none
    completed := false
    trace := [effect.construct_timer ex timeout, effect.start_timer_wait ex,
      effect.start_operation ex] }

namespace scratch

/-- The completion handler for the group in `src/scratch.cpp` (lines 45-48):
`(auto, auto, auto... results)`, whose body only invokes the handler with
`results`. -/
def group_completion_handler {α : Type} (_order : List Nat) (_timer_ec : error_code)
    (results : List α) (st : race_state α) : race_state α :=
  invoke_handler results st

end scratch

/-! ## The race (`make_parallel_group(...).async_wait(wait_for_one(), ...)`) -/

/-- What can happen to a race once it is started. -/
inductive event (α : Type) where
  /-- Branch 0 settles: the timer wait completes with an error code. -/
  | timer_settles (ec : error_code)
  /-- Branch 1 settles: the underlying operation completes with its results. -/
  | op_settles (results : List α)
  /-- The group's completion handler is run. -/
  | complete
deriving DecidableEq

/-- Modelled from the spec: the bookkeeping of the Race Coordinator
(`asio::experimental::parallel_group` waited on with `wait_for_one()`, which
is not among the repository's sources) when a branch settles.  Section 4.2:
the settlement is recorded in completion order, and "immediately upon
recording a winner, cancellation is requested on every other still-pending
branch". -/
def record_settlement {α : Type} (branch : Nat) (st : race_state α) : race_state α :=
  let others := [0, 1].filter fun i => i != branch && !st.completion_order.contains i
  let requests := if st.completion_order.isEmpty then others.map effect.cancel else []
  { st with completion_order := st.completion_order ++ [branch], trace := st.trace ++ requests }

/-- Modelled from the spec: one transition of the Race Coordinator (section 4.2
and the state machine of section 4.3).  A branch settles at most once; the
group's completion handler is run once, and only when both branches have
settled, with the completion order and the two branches' results.  An event
that cannot happen in the state gives `none`. -/
def step {α : Type} (st : race_state α) : event α → Option (race_state α)
  | event.timer_settles ec =>
    match st.timer_result with
    | none => some { record_settlement 0 st with timer_result := some ec }
    | some _ => none
  | event.op_settles results =>
    match st.op_result with
    | none => some { record_settlement 1 st with op_result := some results }
    | some _ => none
  | event.complete =>
    match st.timer_result, st.op_result, st.completed with
    | some ec, some results, false =>
      some (group_completion_handler st.completion_order ec results { st with completed := true })
    | _, _, _ => none

/-- A sequence of events from a state; `none` when one of them cannot happen. -/
def run {α : Type} (st : race_state α) : List (event α) → Option (race_state α)
  | [] => some st
  | ev :: evs =>
    match step st ev with
    | some st' => run st' evs
    | none => none

/-- The effects of launching a race on executor `ex` with deadline `timeout`. -/
def launch_trace {α : Type} (ex : executor) (timeout : Int) : List (effect α) :=
  [effect.construct_timer ex timeout, effect.start_timer_wait ex, effect.start_operation ex]

/-- The shapes a race started on `ex` with deadline `timeout` can have: nothing
settled; one branch settled and the other sent a cancellation request; both
settled; completed. -/
def race_inv {α : Type} (ex : executor) (timeout : Int) (st : race_state α) : Prop :=
  st = ⟨true, [], none, none, false, launch_trace ex timeout⟩ ∨
  (∃ ec, st = ⟨true, [0], some ec, none, false, launch_trace ex timeout ++ [effect.cancel 1]⟩) ∨
  (∃ r, st = ⟨true, [1], none, some r, false, launch_trace ex timeout ++ [effect.cancel 0]⟩) ∨
  (∃ ec r, st = ⟨true, [0, 1], some ec, some r, false,
    launch_trace ex timeout ++ [effect.cancel 1]⟩) ∨
  (∃ ec r, st = ⟨true, [1, 0], some ec, some r, false,
    launch_trace ex timeout ++ [effect.cancel 0]⟩) ∨
  (∃ ec r, st = ⟨false, [0, 1], some ec, some r, true,
    launch_trace ex timeout ++ [effect.cancel 1, effect.timer_reset, effect.invoke r]⟩) ∨
  (∃ ec r, st = ⟨false, [1, 0], some ec, some r, true,
    launch_trace ex timeout ++ [effect.cancel 0, effect.timer_reset, effect.invoke r]⟩)


/-! ## A concrete race: the demo's `async_read_until` with a 5 s deadline -/

/-- The race of the demo (`run`, line 179): `async_read_until` on an executor of
the coroutine's `io_context`, with the deadline `5s`. -/
def demo_race : race_state value :=
  timed_initiation (some (executor.context 1)) none 5000

/-- The line `"hello\n"` (6 characters) arrives first; the cancelled timer wait
then reports `operation_aborted`, and the group's completion handler runs. -/
def demo_events : List (event value) :=
  [event.op_settles [value.ec error_code.success, value.size 6],
    event.timer_settles error_code.operation_aborted, event.complete]

/-- The state in which `demo_events` leaves `demo_race`. -/
def demo_final : race_state value :=
  { handler_holds_timer := false
    completion_order := [1, 0]
    timer_result := some error_code.operation_aborted
    op_result := some [value.ec error_code.success, value.size 6]
    completed := true
    trace := [effect.construct_timer (executor.context 1) 5000,
      effect.start_timer_wait (executor.context 1), effect.start_operation (executor.context 1),
      effect.cancel 0, effect.timer_reset,
      effect.invoke [value.ec error_code.success, value.size 6]] }

/-- The state of the demo's race when the timer has fired first and the read,
cancelled, has reported `results`: both branches settled, handler not yet run. -/
def timer_first_state (results : List value) : race_state value :=
  { handler_holds_timer := true
    completion_order := [0, 1]
    timer_result := some error_code.success
    op_result := some results
    completed := false
    trace := [effect.construct_timer (executor.context 1) 5000,
      effect.start_timer_wait (executor.context 1), effect.start_operation (executor.context 1),
      effect.cancel 1] }

/-- The state of the demo's race when the read has settled first with the line
`"hello\n"` and the timer wait, now sent a cancellation request, is pending. -/
def read_first_state : race_state value :=
  { handler_holds_timer := true
    completion_order := [1]
    timer_result := none
    op_result := some [value.ec error_code.success, value.size 6]
    completed := false
    trace := [effect.construct_timer (executor.context 1) 5000,
      effect.start_timer_wait (executor.context 1), effect.start_operation (executor.context 1),
      effect.cancel 0] }


/-! ## Lemmas on `trim_crlf` -/

/-- The state `timer_first_state results` is the one the demo's race is in after the
timer has fired and the read has then reported `results`. -/
theorem timer_first_state_reachable (results : List value) :
    run demo_race [event.timer_settles error_code.success, event.op_settles results] =
      some (timer_first_state results) :=
  rfl

theorem race_inv_init {α : Type} (h i : Option executor) (t : Int) :
    race_inv (α := α) (get_associated_executor h (get_associated_executor_default i)) t
      (timed_initiation h i t) :=
  Or.inl rfl

theorem race_inv_step {α : Type} (ex : executor) (t : Int) (st st' : race_state α)
    (ev : event α) (hinv : race_inv ex t st) (hs : step st ev = some st') :
    race_inv ex t st' := by
  unfold race_inv at hinv
  rcases hinv with h | ⟨ec, h⟩ | ⟨r, h⟩ | ⟨ec, r, h⟩ | ⟨ec, r, h⟩ | ⟨ec, r, h⟩ | ⟨ec, r, h⟩ <;>
    subst h <;> cases ev <;>
    simp [step, record_settlement, group_completion_handler, invoke_handler, timer_reset] at hs <;>
    subst hs <;> simp [race_inv, launch_trace]

theorem race_inv_run {α : Type} (ex : executor) (t : Int) (evs : List (event α))
    (st st' : race_state α) (hinv : race_inv ex t st) (hr : run st evs = some st') :
    race_inv ex t st' := by
  induction evs generalizing st with
  | nil =>
    simp [run] at hr
    subst hr; exact hinv
  | cons ev evs ih =>
    unfold run at hr
    cases hstep : step st ev with
    | none => rw [hstep] at hr; simp at hr
    | some s1 =>
      rw [hstep] at hr
      exact ih s1 (race_inv_step ex t st s1 ev hinv hstep) hr

theorem race_inv_reachable {α : Type} (h i : Option executor) (t : Int) (evs : List (event α))
    (st : race_state α) (hr : run (timed_initiation h i t) evs = some st) :
    race_inv (get_associated_executor h (get_associated_executor_default i)) t st :=
  race_inv_run _ t evs _ st (race_inv_init h i t) hr


/-! ## The claims -/

/-- C1: when the target operation settles with result tuple `R` before the timer
(completion order `[1, 0]`), the group completion handler invokes the caller's
continuation once more, with exactly `R`: the completion-order array and the
timer's error code are dropped and nothing is added or altered, whatever the
arity of `R` and whatever the timer wait reported. -/
theorem operation_first_result_forwarded {α : Type} (timer_ec : error_code) (R : List α)
    (st : race_state α) :
    delivered (group_completion_handler [1, 0] timer_ec R st) = delivered st ++ [R] := by
  simp [group_completion_handler, invoke_handler, timer_reset, delivered, List.filterMap_append]

/-- C2, as the code has it: when the timer branch settles first (completion order
`[0, 1]`), the continuation is invoked with exactly the result tuple that the
target operation reported, unchanged; no timeout indicator is put in the
error slot and no slot is replaced by a default value. -/
theorem timer_first_result_forwarded {α : Type} (timer_ec : error_code) (R : List α)
    (st : race_state α) :
    delivered (group_completion_handler [0, 1] timer_ec R st) = delivered st ++ [R] := by
  simp [group_completion_handler, invoke_handler, timer_reset, delivered, List.filterMap_append]

/-- C2 fails as stated.  The timer fires first and the cancelled read reports
`(operation_aborted, 0)`: the continuation's error slot holds the very error
the operation reported, so there is no timeout indicator distinct from the
operation's errors in it.  The timer fires first and the read still reports
`(success, 6)`: the continuation receives no error at all and the remaining
slot is not the default `0`. -/
theorem timer_first_no_timeout_indicator :
    (¬ ∃ timeout : error_code, timeout ≠ error_code.operation_aborted ∧
      delivered (group_completion_handler [0, 1] error_code.success
        [value.ec error_code.operation_aborted, value.size 0]
        (timer_first_state [value.ec error_code.operation_aborted, value.size 0])) =
      [[value.ec timeout, value.size 0]]) ∧
    (¬ ∃ timeout : error_code,
      delivered (group_completion_handler [0, 1] error_code.success
        [value.ec error_code.success, value.size 6]
        (timer_first_state [value.ec error_code.success, value.size 6])) =
      [[value.ec timeout, value.size 0]]) := by
  constructor
  · rintro ⟨timeout, hne, h⟩
    simp [group_completion_handler, invoke_handler, timer_reset, delivered, timer_first_state] at h
    exact hne h.symm
  · rintro ⟨timeout, h⟩
    simp [group_completion_handler, invoke_handler, timer_reset, delivered, timer_first_state] at h

/-- C6: the group completion handler first resets its captured `timer` and only
then invokes the continuation: the continuation runs in a state in which the
handler no longer holds the timer, the two effects are appended in the order
`timer_reset`, `invoke`, and nothing follows the invocation.  Until then the
handler has held the timer since the race was launched. -/
theorem timer_released_before_continuation {α : Type} (order : List Nat) (timer_ec : error_code)
    (results : List α) (st : race_state α) :
    group_completion_handler order timer_ec results st = invoke_handler results (timer_reset st) ∧
    (timer_reset st).handler_holds_timer = false ∧
    (group_completion_handler order timer_ec results st).trace =
      st.trace ++ [effect.timer_reset, effect.invoke results] ∧
    (group_completion_handler order timer_ec results st).handler_holds_timer = false ∧
    (∀ (h i : Option executor) (t : Int),
      (timed_initiation h i t : race_state α).handler_holds_timer = true) := by
  refine ⟨rfl, rfl, ?_, rfl, fun _ _ _ => rfl⟩
  simp [group_completion_handler, invoke_handler, timer_reset]

/-- C7: the executor of a race is the one associated with the caller's handler if
it has one, otherwise the one associated with the initiation if it has one,
otherwise the system executor; the timer is constructed on that executor and
both the timer wait and the target operation are bound to it. -/
theorem executor_selected_once {α : Type} (handler_ex initiation_ex : Option executor)
    (timeout : Int) :
    (timed_initiation handler_ex initiation_ex timeout : race_state α).trace =
      [effect.construct_timer
          (match handler_ex, initiation_ex with
            | some e, _ => e
            | none, some e => e
            | none, none => executor.system_executor) timeout,
        effect.start_timer_wait
          (match handler_ex, initiation_ex with
            | some e, _ => e
            | none, some e => e
            | none, none => executor.system_executor),
        effect.start_operation
          (match handler_ex, initiation_ex with
            | some e, _ => e
            | none, some e => e
            | none, none => executor.system_executor)] := by
  cases handler_ex <;> cases initiation_ex <;> rfl

/-- C10: what the continuation receives depends on the target operation's result
tuple alone.  With the same tuple `R`, two runs of the group completion handler
that differ in the completion-order array and in the timer's error code leave
the same state, and even from different states the continuation's arguments
are the same, namely `R`.  The same holds for the handler of `scratch.cpp`. -/
theorem continuation_args_from_operation_only {α : Type} (order₁ order₂ : List Nat)
    (ec₁ ec₂ : error_code) (R : List α) (st₁ st₂ : race_state α) :
    group_completion_handler order₁ ec₁ R st₁ = group_completion_handler order₂ ec₂ R st₁ ∧
    (delivered (group_completion_handler order₁ ec₁ R st₁)).getLast? = some R ∧
    (delivered (group_completion_handler order₂ ec₂ R st₂)).getLast? = some R ∧
    scratch.group_completion_handler order₁ ec₁ R st₁ =
      scratch.group_completion_handler order₂ ec₂ R st₁ ∧
    (delivered (scratch.group_completion_handler order₁ ec₁ R st₁)).getLast? = some R ∧
    (delivered (scratch.group_completion_handler order₂ ec₂ R st₂)).getLast? = some R := by
  refine ⟨rfl, ?_, ?_, rfl, ?_, ?_⟩ <;>
    simp [group_completion_handler, scratch.group_completion_handler, invoke_handler,
      timer_reset, delivered, List.filterMap_append]

/-- C3: in every state a race can reach, the continuation has been invoked at most
once; it has been invoked exactly once, with the operation's result, precisely
when the race is completed; a race that is not completed can always go on and
a completed one accepts no further event, so that a race that has run to its
end has invoked the continuation exactly once, whichever branch settled first
and whatever either reported.  One run of the group completion handler invokes
the continuation exactly once. -/
theorem continuation_invoked_exactly_once {α : Type} (h i : Option executor) (t : Int)
    (evs : List (event α)) (st : race_state α)
    (hr : run (timed_initiation h i t) evs = some st) :
    (delivered st).length ≤ 1 ∧
    (st.completed = true ↔ (delivered st).length = 1) ∧
    (st.completed = true → ∃ r, st.op_result = some r ∧ delivered st = [r]) ∧
    (st.completed = true ↔ ∀ ev, step st ev = none) ∧
    (∃ rest st', run st rest = some st' ∧ st'.completed = true ∧ (delivered st').length = 1) ∧
    (∀ (order : List Nat) (ec : error_code) (R : List α) (st₀ : race_state α),
      (delivered (group_completion_handler order ec R st₀)).length =
        (delivered st₀).length + 1) := by
  have hinv := race_inv_reachable h i t evs st hr
  refine ⟨?_, ?_, ?_, ?_, ?_, ?_⟩
  · rcases hinv with h | ⟨ec, h⟩ | ⟨r, h⟩ | ⟨ec, r, h⟩ | ⟨ec, r, h⟩ | ⟨ec, r, h⟩ | ⟨ec, r, h⟩ <;>
      subst h <;> simp [delivered, launch_trace]
  · rcases hinv with h | ⟨ec, h⟩ | ⟨r, h⟩ | ⟨ec, r, h⟩ | ⟨ec, r, h⟩ | ⟨ec, r, h⟩ | ⟨ec, r, h⟩ <;>
      subst h <;> simp [delivered, launch_trace]
  · rcases hinv with h | ⟨ec, h⟩ | ⟨r, h⟩ | ⟨ec, r, h⟩ | ⟨ec, r, h⟩ | ⟨ec, r, h⟩ | ⟨ec, r, h⟩ <;>
      subst h <;> simp [delivered, launch_trace]
  · rcases hinv with h | ⟨ec, h⟩ | ⟨r, h⟩ | ⟨ec, r, h⟩ | ⟨ec, r, h⟩ | ⟨ec, r, h⟩ | ⟨ec, r, h⟩ <;>
      subst h
    · simp; exact ⟨event.op_settles [], by simp [step]⟩
    · simp; exact ⟨event.op_settles [], by simp [step]⟩
    · simp; exact ⟨event.timer_settles error_code.success, by simp [step]⟩
    · simp; exact ⟨event.complete, by simp [step]⟩
    · simp; exact ⟨event.complete, by simp [step]⟩
    · simp; intro ev; cases ev <;> simp [step]
    · simp; intro ev; cases ev <;> simp [step]
  · rcases hinv with h | ⟨ec, h⟩ | ⟨r, h⟩ | ⟨ec, r, h⟩ | ⟨ec, r, h⟩ | ⟨ec, r, h⟩ | ⟨ec, r, h⟩ <;>
      subst h
    · exact ⟨[event.timer_settles error_code.success, event.op_settles [], event.complete], _,
        rfl, rfl, by simp [delivered, launch_trace, group_completion_handler, invoke_handler,
          timer_reset, record_settlement]⟩
    · exact ⟨[event.op_settles [], event.complete], _, rfl, rfl,
        by simp [delivered, launch_trace, group_completion_handler, invoke_handler,
          timer_reset, record_settlement]⟩
    · exact ⟨[event.timer_settles error_code.success, event.complete], _, rfl, rfl,
        by simp [delivered, launch_trace, group_completion_handler, invoke_handler,
          timer_reset, record_settlement]⟩
    · exact ⟨[event.complete], _, rfl, rfl,
        by simp [delivered, launch_trace, group_completion_handler, invoke_handler,
          timer_reset]⟩
    · exact ⟨[event.complete], _, rfl, rfl,
        by simp [delivered, launch_trace, group_completion_handler, invoke_handler,
          timer_reset]⟩
    · exact ⟨[], _, rfl, rfl, by simp [delivered, launch_trace]⟩
    · exact ⟨[], _, rfl, rfl, by simp [delivered, launch_trace]⟩
  · intro order ec R st₀
    simp [group_completion_handler, invoke_handler, timer_reset, delivered,
      List.filterMap_append]

/-- C3 at the demo's race: the hypothesis holds there, and the continuation was
invoked once. -/
theorem continuation_invoked_exactly_once_witness :
    run demo_race demo_events = some demo_final ∧ (delivered demo_final).length = 1 :=
  ⟨by decide,
    (continuation_invoked_exactly_once (some (executor.context 1)) none 5000 demo_events
      demo_final (by decide)).2.1.1 (by decide)⟩

/-- C4: in every state a race can reach, the timer was constructed and then the
timer wait (branch 0) and the target operation (branch 1) were started, in
that order, before anything else; while no branch has settled no
cancellation request has been emitted; once a branch has settled exactly one
request has been emitted, to the other branch; and that request is emitted by
the very step in which the first branch settles. -/
theorem both_started_first_settlement_cancels_other {α : Type} (h i : Option executor) (t : Int)
    (evs : List (event α)) (st : race_state α)
    (hr : run (timed_initiation h i t) evs = some st) :
    (∃ ex, [effect.construct_timer ex t, effect.start_timer_wait ex, effect.start_operation ex]
      <+: st.trace) ∧
    (st.completion_order = [] → cancelled st = []) ∧
    (∀ w rest, st.completion_order = w :: rest → w < 2 ∧ cancelled st = [1 - w]) ∧
    (st.completion_order = [] → ∀ ec, ∃ st', step st (event.timer_settles ec) = some st' ∧
      st'.completion_order = [0] ∧ st'.trace = st.trace ++ [effect.cancel 1]) ∧
    (st.completion_order = [] → ∀ r, ∃ st', step st (event.op_settles r) = some st' ∧
      st'.completion_order = [1] ∧ st'.trace = st.trace ++ [effect.cancel 0]) := by
  have hinv := race_inv_reachable h i t evs st hr
  rcases hinv with h | ⟨ec, h⟩ | ⟨r, h⟩ | ⟨ec, r, h⟩ | ⟨ec, r, h⟩ | ⟨ec, r, h⟩ | ⟨ec, r, h⟩ <;>
    subst h <;>
    refine ⟨⟨get_associated_executor h (get_associated_executor_default i), ?_⟩, ?_, ?_, ?_, ?_⟩ <;>
    simp [cancelled, launch_trace, step, record_settlement]

/-- C4 at the demo's race, after the read has settled first: the hypothesis holds
and the one cancellation request went to the timer wait, branch 0. -/
theorem both_started_first_settlement_cancels_other_witness :
    run demo_race [event.op_settles [value.ec error_code.success, value.size 6]] =
      some read_first_state ∧ cancelled read_first_state = [0] :=
  ⟨by decide,
    ((both_started_first_settlement_cancels_other (some (executor.context 1)) none 5000
      [event.op_settles [value.ec error_code.success, value.size 6]] read_first_state
      (by decide)).2.2.1 1 [] rfl).2⟩

end timed
